import Mathlib

/-!
Shallow embedding of the calculator engine in `src/project/src/App.tsx`.

Numbers: the source works on JavaScript IEEE-754 doubles.  Every finite
double is a rational number, so the value domain is modelled as
`Option ℚ`, with `none` standing for the non-finite values (`NaN`, and
the infinities, which only arise through the abstract platform math
functions below).  Exact rational arithmetic stands in for double
arithmetic; the concrete traces verified here stay on small decimal
values where the two agree.

Platform math (`Math.sin`, `Math.pow`, ...) is external to the source
file, so it is kept abstract as a structure of functions (`MathLib`);
theorems quantify over it, and concrete witnesses instantiate it with a
dummy.

React state: each `useState` setter call inside a handler is batched;
all reads of `display`, `waitingForNewValue`, ... inside one handler see
the values captured at the start of the event (the render's closure),
and the last queued write to a field wins.  Each handler is therefore a
pure function `CalcState → CalcState` computed from the old state
snapshot.  This faithfully reproduces the stale-closure behaviour of
`handleNumber` (the `display === '0' ? num : display + num` branch reads
the pre-event `display`, not the `'0'` queued by the error branch).
-/

namespace SciCalc

/-- A JavaScript number: `some q` is the finite double of value `q`,
`none` is `NaN` (non-finite). -/
abbrev JSNum := Option ℚ

/-- Lift a binary rational operation to `JSNum`, propagating `NaN`. -/
def jsBin (f : ℚ → ℚ → ℚ) : JSNum → JSNum → JSNum
  | some a, some b => some (f a b)
  | _, _ => none

def jsAdd : JSNum → JSNum → JSNum := jsBin (· + ·)

def jsSub : JSNum → JSNum → JSNum := jsBin (· - ·)

def jsMul : JSNum → JSNum → JSNum := jsBin (· * ·)

def jsDiv : JSNum → JSNum → JSNum := jsBin (· / ·)

/-- JS `x < 0`: false for `NaN`. -/
def jsLt0 : JSNum → Bool
  | some q => decide (q < 0)
  | none => false

/-- JS `Number.isInteger`: false for `NaN` and non-finite values. -/
def jsIsInteger : JSNum → Bool
  | some q => decide (q.den = 1)
  | none => false

/-- JS `x || 0` on a number `x`: `0` and `NaN` are falsy. -/
def jsOrZero : JSNum → JSNum
  | some q => some q
  | none => some 0

/-- The platform math library (`Math.*`), abstract: the source calls it
but does not define it.  All functions take and return `JSNum`. -/
structure MathLib where
  sin : JSNum → JSNum
  cos : JSNum → JSNum
  tan : JSNum → JSNum
  log10 : JSNum → JSNum
  log : JSNum → JSNum
  sqrt : JSNum → JSNum
  pow : JSNum → JSNum → JSNum
  pi : JSNum
  e : JSNum

/-- A computable stand-in used only to evaluate concrete traces that
never consult the math library. -/
def dummyMath : MathLib where
  sin := fun _ => some 0
  cos := fun _ => some 0
  tan := fun _ => some 0
  log10 := fun _ => some 0
  log := fun _ => some 0
  sqrt := fun _ => some 0
  pow := fun _ _ => some 0
  pi := some 0
  e := some 0

/-- Digit-string to natural number. -/
def natOfDigits (ds : List Char) : ℕ :=
  ds.foldl (fun a c => 10 * a + (c.toNat - 48)) 0

/-- JS `parseFloat` restricted to the strings the calculator produces:
optional sign, integer digits, optional `.` and fraction digits; `none`
(`NaN`) when no digit is parsed (e.g. `"Error"`, `"NaN"`).  Exponent
suffixes never occur on the traces considered and are not modelled. -/
def parseFloat (t : String) : JSNum :=
  let cs := t.toList
  let signAndRest : Bool × List Char :=
    match cs with
    | '-' :: rest => (true, rest)
    | '+' :: rest => (false, rest)
    | _ => (false, cs)
  let neg := signAndRest.1
  let cs1 := signAndRest.2
  let intPart := cs1.takeWhile Char.isDigit
  let rest := cs1.dropWhile Char.isDigit
  let fracPart :=
    match rest with
    | '.' :: r2 => r2.takeWhile Char.isDigit
    | _ => ([] : List Char)
  if intPart.isEmpty && fracPart.isEmpty then none
  else
    let mag : ℚ :=
      (natOfDigits intPart : ℚ) + (natOfDigits fracPart : ℚ) / (10 : ℚ) ^ fracPart.length
    some (if neg then -mag else mag)

/-- Left-pad a string with `'0'` to length `k`. -/
def padZeros (t : String) (k : ℕ) : String :=
  String.mk (List.replicate (k - t.length) '0') ++ t

/-- JS `String(q)` for a finite double `q`: exact decimal notation.
Every double is a dyadic rational, so its reduced denominator always
divides a power of ten; the final branch is unreachable for genuine
double values and is a harmless fallback. -/
def ratToString (q : ℚ) : String :=
  let sign := if q < 0 then "-" else ""
  let n := q.num.natAbs
  let d := q.den
  match (List.range 65).find? (fun k => d ∣ 10 ^ k) with
  | some k =>
      let scaled := n * (10 ^ k / d)
      if k = 0 then sign ++ Nat.repr scaled
      else sign ++ Nat.repr (scaled / 10 ^ k) ++ "." ++ padZeros (Nat.repr (scaled % 10 ^ k)) k
  | none => sign ++ Nat.repr n ++ "/" ++ Nat.repr d

/-- JS `String(x)` on a number. -/
def jsToString : JSNum → String
  | some q => ratToString q
  | none => "NaN"

/-- One history entry (`interface HistoryEntry`). -/
structure HistoryEntry where
  expression : String
  result : String
deriving DecidableEq, Repr

/-- Push a history entry: `[entry, ...prev.slice(0, 9)]`. -/
def pushHistory (entry : HistoryEntry) (prev : List HistoryEntry) : List HistoryEntry :=
  entry :: prev.take 9

/-- The binary operator tokens reaching `handleOperation`
(`+ - * /` from keys and buttons, `^` from the `x^y` button). -/
inductive Op where
  | add | sub | mul | div | pow
deriving DecidableEq, Repr

def opString : Op → String
  | .add => "+"
  | .sub => "-"
  | .mul => "*"
  | .div => "/"
  | .pow => "^"

/-- `calculate(firstValue, secondValue, op)`: `none` models the thrown
`Division by zero` error. -/
def calculate (M : MathLib) (firstValue secondValue : JSNum) : Op → Option JSNum
  | .add => some (jsAdd firstValue secondValue)
  | .sub => some (jsSub firstValue secondValue)
  | .mul => some (jsMul firstValue secondValue)
  | .div => if secondValue = some 0 then none else some (jsDiv firstValue secondValue)
  | .pow => some (M.pow firstValue secondValue)

/-- The scientific function tokens reaching `handleScientific`. -/
inductive SciFunc where
  | sin | cos | tan | log | ln | sqrt | fact | recip | square | pi | e
deriving DecidableEq, Repr

/-- The `func` string of each scientific button, used in the history
expression template. -/
def sciName : SciFunc → String
  | .sin => "sin"
  | .cos => "cos"
  | .tan => "tan"
  | .log => "log"
  | .ln => "ln"
  | .sqrt => "sqrt"
  | .fact => "!"
  | .recip => "1/x"
  | .square => "x²"
  | .pi => "π"
  | .e => "e"

/-- The recursive `factorial` from the source, on the non-negative
integers that the guard in `handleScientific` admits. -/
def factorial : ℕ → ℕ
  | 0 => 1
  | 1 => 1
  | n + 2 => (n + 2) * factorial (n + 1)

/-- `factorial(inputValue)` at a guarded (non-negative integer) input. -/
def jsFactorial : JSNum → JSNum
  | some q => some ((factorial q.num.toNat : ℕ) : ℚ)
  | none => none

/-- The `switch (func)` body of `handleScientific`: `none` models a
thrown error. -/
def sciResult (M : MathLib) (f : SciFunc) (x : JSNum) : Option JSNum :=
  match f with
  | .sin => some (M.sin x)
  | .cos => some (M.cos x)
  | .tan => some (M.tan x)
  | .log => some (M.log10 x)
  | .ln => some (M.log x)
  | .sqrt => if jsLt0 x then none else some (M.sqrt x)
  | .fact => if jsLt0 x || !(jsIsInteger x) then none else some (jsFactorial x)
  | .recip => if x = some 0 then none else some (jsDiv (some 1) x)
  | .square => some (jsMul x x)
  | .pi => some M.pi
  | .e => some M.e

/-- The engine state: the `useState` fields of `App` (minus the
UI-only `showHistory` toggle). -/
structure CalcState where
  display : String
  previousValue : Option JSNum
  operation : Option Op
  waitingForNewValue : Bool
  memory : JSNum
  history : List HistoryEntry
  isError : Bool
deriving DecidableEq, Repr

/-- The initial render's state. -/
def initState : CalcState where
  display := "0"
  previousValue := none
  operation := none
  waitingForNewValue := false
  memory := some 0
  history := []
  isError := false

/-- `handleNumber(num)`.  Note the stale closure: the
`display === '0' ? num : display + num` branch reads the pre-event
`display`, so the `setDisplay('0')` queued by the error branch is
overwritten. -/
def handleNumber (num : String) (s : CalcState) : CalcState :=
  let cleared := if s.isError then { s with display := "0", isError := false } else s
  if s.waitingForNewValue then
    { cleared with display := num, waitingForNewValue := false }
  else
    { cleared with display := if s.display = "0" then num else s.display ++ num }

/-- `handleDecimal()`. -/
def handleDecimal (s : CalcState) : CalcState :=
  if s.isError then { s with display := "0.", isError := false }
  else if s.waitingForNewValue then { s with display := "0.", waitingForNewValue := false }
  else if '.' ∈ s.display.toList then s
  else { s with display := s.display ++ "." }

/-- `handleOperation(nextOperation)`. -/
def handleOperation (M : MathLib) (nextOp : Op) (s : CalcState) : CalcState :=
  let inputValue := parseFloat s.display
  match s.previousValue, s.operation with
  | none, _ =>
      { s with previousValue := some inputValue, waitingForNewValue := true,
               operation := some nextOp }
  | some _, none =>
      { s with waitingForNewValue := true, operation := some nextOp }
  | some pv, some op =>
      let currentValue := jsOrZero pv
      match calculate M currentValue inputValue op with
      | some newValue =>
          { s with display := jsToString newValue,
                   previousValue := some newValue,
                   history := pushHistory
                     ⟨jsToString currentValue ++ " " ++ opString op ++ " " ++ jsToString inputValue,
                      jsToString newValue⟩ s.history,
                   waitingForNewValue := true,
                   operation := some nextOp }
      | none =>
          { s with display := "Error", isError := true,
                   previousValue := none, operation := none }

/-- `handleEquals()`.  Unlike `handleOperation` it uses `previousValue`
directly (no `|| 0`). -/
def handleEquals (M : MathLib) (s : CalcState) : CalcState :=
  let inputValue := parseFloat s.display
  match s.previousValue, s.operation with
  | some pv, some op =>
      match calculate M pv inputValue op with
      | some newValue =>
          { s with display := jsToString newValue,
                   history := pushHistory
                     ⟨jsToString pv ++ " " ++ opString op ++ " " ++ jsToString inputValue,
                      jsToString newValue⟩ s.history,
                   previousValue := none, operation := none,
                   waitingForNewValue := true }
      | none =>
          { s with display := "Error", isError := true,
                   previousValue := none, operation := none }
  | _, _ => s

/-- `handleScientific(func)`.  The catch branch sets only the display
and the error flag. -/
def handleScientific (M : MathLib) (f : SciFunc) (s : CalcState) : CalcState :=
  let inputValue := parseFloat s.display
  match sciResult M f inputValue with
  | some result =>
      { s with display := jsToString result,
               history := pushHistory
                 ⟨sciName f ++ "(" ++ jsToString inputValue ++ ")", jsToString result⟩
                 s.history,
               waitingForNewValue := true }
  | none => { s with display := "Error", isError := true }

/-- `handleClear()`. -/
def handleClear (s : CalcState) : CalcState :=
  { s with display := "0", previousValue := none, operation := none,
           waitingForNewValue := false, isError := false }

/-- `handleAllClear()`. -/
def handleAllClear (s : CalcState) : CalcState :=
  { handleClear s with memory := some 0, history := [] }

/-- The memory command tokens. -/
inductive MemOp where
  | mc | mr | ms | mplus | mminus
deriving DecidableEq, Repr

/-- `handleMemory(func)`. -/
def handleMemory (m : MemOp) (s : CalcState) : CalcState :=
  let inputValue := parseFloat s.display
  match m with
  | .mc => { s with memory := some 0 }
  | .mr => { s with display := jsToString s.memory, waitingForNewValue := true }
  | .ms => { s with memory := inputValue }
  | .mplus => { s with memory := jsAdd s.memory inputValue }
  | .mminus => { s with memory := jsSub s.memory inputValue }

/-- The backspace key / `⌫` button. -/
def handleBackspace (s : CalcState) : CalcState :=
  if s.display.toList.length > 1 then
    { s with display := String.mk s.display.toList.dropLast }
  else { s with display := "0" }

/-- Clicking a history entry: `setDisplay(entry.result)` and
`setWaitingForNewValue(true)`; out-of-range clicks cannot occur. -/
def handleRecall (i : ℕ) (s : CalcState) : CalcState :=
  match s.history.get? i with
  | some entry => { s with display := entry.result, waitingForNewValue := true }
  | none => s

/-- Clearing the history panel: `setHistory([])`. -/
def handleClearHistory (s : CalcState) : CalcState :=
  { s with history := [] }

/-- Every logical input event the UI or keyboard can deliver. -/
inductive Token where
  | digit : Fin 10 → Token
  | dot : Token
  | binop : Op → Token
  | equals : Token
  | sci : SciFunc → Token
  | clear : Token
  | allClear : Token
  | mem : MemOp → Token
  | backspace : Token
  | recallEntry : ℕ → Token
  | clearHistory : Token
deriving DecidableEq, Repr

/-- The digit character a `Fin 10` key press carries. -/
def digitString (d : Fin 10) : String :=
  String.mk [Char.ofNat (48 + d.val)]

/-- One input event. -/
def step (M : MathLib) (s : CalcState) : Token → CalcState
  | .digit d => handleNumber (digitString d) s
  | .dot => handleDecimal s
  | .binop op => handleOperation M op s
  | .equals => handleEquals M s
  | .sci f => handleScientific M f s
  | .clear => handleClear s
  | .allClear => handleAllClear s
  | .mem m => handleMemory m s
  | .backspace => handleBackspace s
  | .recallEntry i => handleRecall i s
  | .clearHistory => handleClearHistory s

/-- Run a whole input sequence from the initial state. -/
def run (M : MathLib) (toks : List Token) : CalcState :=
  toks.foldl (step M) initState

/-! ### Frame lemmas for the individual handlers -/

theorem handleNumber_history (num : String) (s : CalcState) :
    (handleNumber num s).history = s.history := by
  obtain ⟨d, pv, op, w, mem, hist, err⟩ := s
  cases err <;> cases w <;> rfl

theorem handleNumber_pending (num : String) (s : CalcState) :
    (handleNumber num s).previousValue = s.previousValue ∧
    (handleNumber num s).operation = s.operation := by
  obtain ⟨d, pv, op, w, mem, hist, err⟩ := s
  cases err <;> cases w <;> exact ⟨rfl, rfl⟩

theorem handleDecimal_history (s : CalcState) :
    (handleDecimal s).history = s.history := by
  obtain ⟨d, pv, op, w, mem, hist, err⟩ := s
  by_cases h : '.' ∈ d.data <;> cases err <;> cases w <;>
    simp [handleDecimal, String.toList, h]

theorem handleDecimal_pending (s : CalcState) :
    (handleDecimal s).previousValue = s.previousValue ∧
    (handleDecimal s).operation = s.operation := by
  obtain ⟨d, pv, op, w, mem, hist, err⟩ := s
  by_cases h : '.' ∈ d.data <;> cases err <;> cases w <;>
    simp [handleDecimal, String.toList, h]

theorem handleScientific_pending (M : MathLib) (f : SciFunc) (s : CalcState) :
    (handleScientific M f s).previousValue = s.previousValue ∧
    (handleScientific M f s).operation = s.operation := by
  rcases hr : sciResult M f (parseFloat s.display) with _ | r <;>
    simp [handleScientific, hr]

theorem handleScientific_history (M : MathLib) (f : SciFunc) (s : CalcState) :
    (handleScientific M f s).history = s.history ∨
    ∃ entry, (handleScientific M f s).history = pushHistory entry s.history := by
  rcases hr : sciResult M f (parseFloat s.display) with _ | r
  · left; simp [handleScientific, hr]
  · right
    simp only [handleScientific, hr]
    exact ⟨_, rfl⟩

theorem handleMemory_frame (m : MemOp) (s : CalcState) :
    (handleMemory m s).previousValue = s.previousValue ∧
    (handleMemory m s).operation = s.operation ∧
    (handleMemory m s).history = s.history ∧
    (handleMemory m s).isError = s.isError := by
  cases m <;> exact ⟨rfl, rfl, rfl, rfl⟩

theorem handleBackspace_frame (s : CalcState) :
    (handleBackspace s).previousValue = s.previousValue ∧
    (handleBackspace s).operation = s.operation ∧
    (handleBackspace s).history = s.history := by
  unfold handleBackspace
  split <;> exact ⟨rfl, rfl, rfl⟩

theorem handleRecall_frame (i : ℕ) (s : CalcState) :
    (handleRecall i s).previousValue = s.previousValue ∧
    (handleRecall i s).operation = s.operation ∧
    (handleRecall i s).history = s.history := by
  unfold handleRecall
  rcases s.history.get? i with _ | entry <;> exact ⟨rfl, rfl, rfl⟩

theorem pushHistory_length_le (entry : HistoryEntry) (prev : List HistoryEntry) :
    (pushHistory entry prev).length ≤ 10 := by
  simp only [pushHistory, List.length_cons, List.length_take]
  omega

/-- Propagate an invariant along a run of input events. -/
theorem foldl_inv {P : CalcState → Prop} (M : MathLib)
    (hstep : ∀ s t, P s → P (step M s t)) :
    ∀ (toks : List Token) (s : CalcState), P s → P (toks.foldl (step M) s)
  | [], _, h => h
  | t :: ts, s, h => foldl_inv M hstep ts (step M s t) (hstep s t h)

theorem step_history_le (M : MathLib) (s : CalcState) (t : Token)
    (h : s.history.length ≤ 10) : (step M s t).history.length ≤ 10 := by
  cases t with
  | digit n => rw [step, handleNumber_history]; exact h
  | dot => rw [step, handleDecimal_history]; exact h
  | binop nextOp =>
      rw [step]
      obtain ⟨d, pv, op, w, mem, hist, err⟩ := s
      rcases pv with _ | v
      · exact h
      · rcases op with _ | o
        · exact h
        · rcases hc : calculate M (jsOrZero v) (parseFloat d) o with _ | nv <;>
            simp only [handleOperation, hc] <;>
            first
              | exact h
              | exact pushHistory_length_le _ _
  | equals =>
      rw [step]
      obtain ⟨d, pv, op, w, mem, hist, err⟩ := s
      rcases pv with _ | v
      · exact h
      · rcases op with _ | o
        · exact h
        · rcases hc : calculate M v (parseFloat d) o with _ | nv <;>
            simp only [handleEquals, hc] <;>
            first
              | exact h
              | exact pushHistory_length_le _ _
  | sci f =>
      rcases handleScientific_history M f s with heq | ⟨entry, heq⟩
      · rw [step, heq]; exact h
      · rw [step, heq]; exact pushHistory_length_le _ _
  | clear => rw [step]; exact h
  | allClear => rw [step]; exact Nat.le_of_lt_succ (by simp [handleAllClear, handleClear])
  | mem m => rw [step, (handleMemory_frame m s).2.2.1]; exact h
  | backspace => rw [step, (handleBackspace_frame s).2.2]; exact h
  | recallEntry i => rw [step, (handleRecall_frame i s).2.2]; exact h
  | clearHistory => rw [step]; simp [handleClearHistory]

theorem step_pending_inv (M : MathLib) (s : CalcState) (t : Token)
    (h : s.previousValue = none ↔ s.operation = none) :
    ((step M s t).previousValue = none ↔ (step M s t).operation = none) := by
  cases t with
  | digit n =>
      rw [step, (handleNumber_pending _ s).1, (handleNumber_pending _ s).2]; exact h
  | dot =>
      rw [step, (handleDecimal_pending s).1, (handleDecimal_pending s).2]; exact h
  | binop nextOp =>
      rw [step]
      obtain ⟨d, pv, op, w, mem, hist, err⟩ := s
      rcases pv with _ | v
      · simp [handleOperation]
      · rcases op with _ | o
        · simp [handleOperation]
        · rcases hc : calculate M (jsOrZero v) (parseFloat d) o with _ | nv <;>
            simp [handleOperation, hc]
  | equals =>
      rw [step]
      obtain ⟨d, pv, op, w, mem, hist, err⟩ := s
      rcases pv with _ | v
      · exact h
      · rcases op with _ | o
        · exact h
        · rcases hc : calculate M v (parseFloat d) o with _ | nv <;>
            simp [handleEquals, hc]
  | sci f =>
      rw [step, (handleScientific_pending M f s).1, (handleScientific_pending M f s).2]
      exact h
  | clear => rw [step]; simp [handleClear]
  | allClear => rw [step]; simp [handleAllClear, handleClear]
  | mem m =>
      rw [step, (handleMemory_frame m s).1, (handleMemory_frame m s).2.1]; exact h
  | backspace =>
      rw [step, (handleBackspace_frame s).1, (handleBackspace_frame s).2.1]; exact h
  | recallEntry i =>
      rw [step, (handleRecall_frame i s).1, (handleRecall_frame i s).2.1]; exact h
  | clearHistory => exact h

/-! ### The claims -/

/-- Claim C4: in every state reachable from the initial state the history
log has at most 10 entries; an appending operation places its entry at
index 0 and, at capacity 10, evicts the last (oldest) entry. -/
theorem C4_history_capacity :
    (∀ (M : MathLib) (toks : List Token), (run M toks).history.length ≤ 10) ∧
    (∀ (entry : HistoryEntry) (prev : List HistoryEntry),
      (pushHistory entry prev).head? = some entry ∧
      (prev.length = 10 → pushHistory entry prev = entry :: prev.dropLast)) := by
  constructor
  · intro M toks
    exact foldl_inv M (step_history_le M) toks initState (by simp [initState])
  · intro entry prev
    refine ⟨rfl, fun h => ?_⟩
    simp only [pushHistory, List.dropLast_eq_take, h]

/-- Witness for `C4_history_capacity` at a history already at
capacity. -/
theorem C4_history_capacity_witness :
    (run dummyMath []).history.length ≤ 10 ∧
    pushHistory ⟨"a", "b"⟩ (List.replicate 10 ⟨"x", "y"⟩) =
      ⟨"a", "b"⟩ :: (List.replicate 10 (⟨"x", "y"⟩ : HistoryEntry)).dropLast :=
  ⟨C4_history_capacity.1 dummyMath [],
   (C4_history_capacity.2 ⟨"a", "b"⟩ (List.replicate 10 ⟨"x", "y"⟩)).2 (by simp)⟩

/-- Claim C5: in every reachable state the pending operand and the
pending operator are both present or both absent. -/
theorem C5_pending_co_invariant (M : MathLib) (toks : List Token) :
    ((run M toks).previousValue = none ↔ (run M toks).operation = none) := by
  exact foldl_inv M (step_pending_inv M) toks initState ⟨fun _ => rfl, fun _ => rfl⟩

/-- Claim C1, checked against the code: after `5`, `/`, `0`, `=` the
error flag is set and the display is the `"Error"` sentinel, and the
subsequent digit `7` does clear the error flag — but the display becomes
`"Error7"`, not `"7"`: the digit branch of `handleNumber` appends to the
stale pre-event `display` closure value, so the `'0'` reset queued by
its error branch is overwritten. -/
theorem C1_divide_by_zero_then_digit :
    (run dummyMath [.digit 5, .binop .div, .digit 0, .equals]).isError = true ∧
    (run dummyMath [.digit 5, .binop .div, .digit 0, .equals]).display = "Error" ∧
    (run dummyMath [.digit 5, .binop .div, .digit 0, .equals, .digit 7]).isError = false ∧
    (run dummyMath [.digit 5, .binop .div, .digit 0, .equals, .digit 7]).display = "Error7" := by
  refine ⟨?_, ?_, ?_, ?_⟩ <;> with_unfolding_all rfl

/-- Counterexample to claim C2 as stated: after `1`, `+`, `2`, `.`, `5`
the factorial key fails (input `2.5` is not an integer), the error flag
is newly set and the history is unchanged, but the pending operand
`1` and pending operator `+` are NOT cleared: the catch branch of
`handleScientific` leaves them untouched. -/
theorem C2_pending_not_cleared_counterexample :
    (run dummyMath [.digit 1, .binop .add, .digit 2, .dot, .digit 5]).isError = false ∧
    (run dummyMath [.digit 1, .binop .add, .digit 2, .dot, .digit 5, .sci .fact]).isError = true ∧
    (run dummyMath [.digit 1, .binop .add, .digit 2, .dot, .digit 5, .sci .fact]).history =
      (run dummyMath [.digit 1, .binop .add, .digit 2, .dot, .digit 5]).history ∧
    (run dummyMath [.digit 1, .binop .add, .digit 2, .dot, .digit 5, .sci .fact]).previousValue =
      some (some 1) ∧
    (run dummyMath [.digit 1, .binop .add, .digit 2, .dot, .digit 5, .sci .fact]).operation =
      some Op.add := by
  refine ⟨?_, ?_, ?_, ?_, ?_⟩ <;> with_unfolding_all rfl

/-- Claim C2 as amended: every failing operation sets the error flag and
leaves the history unchanged; a failing combine in
`handleOperation`/`handleEquals` clears the pending operand and
operator, while a failing unary scientific function leaves the pending
operand and operator exactly as they were. -/
theorem C2_error_state :
    (∀ (M : MathLib) (nextOp : Op) (s : CalcState) (pv : JSNum) (op : Op),
      s.previousValue = some pv → s.operation = some op →
      calculate M (jsOrZero pv) (parseFloat s.display) op = none →
      (handleOperation M nextOp s).isError = true ∧
      (handleOperation M nextOp s).history = s.history ∧
      (handleOperation M nextOp s).previousValue = none ∧
      (handleOperation M nextOp s).operation = none) ∧
    (∀ (M : MathLib) (s : CalcState) (pv : JSNum) (op : Op),
      s.previousValue = some pv → s.operation = some op →
      calculate M pv (parseFloat s.display) op = none →
      (handleEquals M s).isError = true ∧
      (handleEquals M s).history = s.history ∧
      (handleEquals M s).previousValue = none ∧
      (handleEquals M s).operation = none) ∧
    (∀ (M : MathLib) (f : SciFunc) (s : CalcState),
      sciResult M f (parseFloat s.display) = none →
      (handleScientific M f s).isError = true ∧
      (handleScientific M f s).history = s.history ∧
      (handleScientific M f s).previousValue = s.previousValue ∧
      (handleScientific M f s).operation = s.operation) := by
  refine ⟨?_, ?_, ?_⟩
  · intro M nextOp s pv op h1 h2 h3
    simp only [handleOperation, h1, h2, h3]
    refine ⟨?_, ?_, ?_, ?_⟩ <;> trivial
  · intro M s pv op h1 h2 h3
    simp only [handleEquals, h1, h2, h3]
    refine ⟨?_, ?_, ?_, ?_⟩ <;> trivial
  · intro M f s h
    simp only [handleScientific, h]
    refine ⟨?_, ?_, ?_, ?_⟩ <;> trivial

/-- Witness for `C2_error_state` at concrete failing inputs: a division
by zero under `handleOperation` and `handleEquals`, and factorial of
`2.5` under `handleScientific`. -/
theorem C2_error_state_witness :
    (handleOperation dummyMath Op.add
      ⟨"0", some (some 5), some Op.div, false, some 0, [], false⟩).isError = true ∧
    (handleEquals dummyMath
      ⟨"0", some (some 5), some Op.div, false, some 0, [], false⟩).previousValue = none ∧
    (handleScientific dummyMath SciFunc.fact
      ⟨"2.5", some (some 1), some Op.add, false, some 0, [], false⟩).operation =
      some Op.add := by
  refine ⟨(C2_error_state.1 dummyMath Op.add _ (some 5) Op.div rfl rfl ?_).1,
          (C2_error_state.2.1 dummyMath _ (some 5) Op.div rfl rfl ?_).2.2.1,
          (C2_error_state.2.2 dummyMath SciFunc.fact _ ?_).2.2.2⟩ <;>
    with_unfolding_all rfl

/-- Claim C3: binary operators chain left to right with no precedence:
`3`, `+`, `4`, `*`, `2`, `=` displays `(3+4)*2 = 14`, not `3+(4*2)=11`. -/
theorem C3_chaining_no_precedence (M : MathLib) :
    (run M [.digit 3, .binop .add, .digit 4, .binop .mul, .digit 2, .equals]).display = "14" ∧
    (run M [.digit 3, .binop .add, .digit 4, .binop .mul, .digit 2, .equals]).display ≠ "11" := by
  have h1 : step M initState (.digit 3) =
      ⟨"3", none, none, false, some 0, [], false⟩ := by with_unfolding_all rfl
  have h2 : step M ⟨"3", none, none, false, some 0, [], false⟩ (.binop .add) =
      ⟨"3", some (some 3), some Op.add, true, some 0, [], false⟩ := by with_unfolding_all rfl
  have h3 : step M ⟨"3", some (some 3), some Op.add, true, some 0, [], false⟩ (.digit 4) =
      ⟨"4", some (some 3), some Op.add, false, some 0, [], false⟩ := by with_unfolding_all rfl
  have h4 : step M ⟨"4", some (some 3), some Op.add, false, some 0, [], false⟩ (.binop .mul) =
      ⟨"7", some (some 7), some Op.mul, true, some 0, [⟨"3 + 4", "7"⟩], false⟩ := by
    with_unfolding_all rfl
  have h5 : step M ⟨"7", some (some 7), some Op.mul, true, some 0, [⟨"3 + 4", "7"⟩], false⟩
      (.digit 2) =
      ⟨"2", some (some 7), some Op.mul, false, some 0, [⟨"3 + 4", "7"⟩], false⟩ := by
    with_unfolding_all rfl
  have h6 : step M ⟨"2", some (some 7), some Op.mul, false, some 0, [⟨"3 + 4", "7"⟩], false⟩
      .equals =
      ⟨"14", none, none, true, some 0, [⟨"7 * 2", "14"⟩, ⟨"3 + 4", "7"⟩], false⟩ := by
    with_unfolding_all rfl
  simp only [run, List.foldl_cons, List.foldl_nil, h1, h2, h3, h4, h5, h6]
  exact ⟨by trivial, by simp⟩

/-- Claim C6: `handleDecimal` is idempotent on the display, and once the
display holds a decimal point (outside the error and awaiting-new-entry
special cases, which replace the display with `"0."` instead) a further
decimal-point entry is a no-op. -/
theorem C6_decimal_idempotent :
    (∀ s : CalcState, (handleDecimal (handleDecimal s)).display = (handleDecimal s).display) ∧
    (∀ s : CalcState, s.isError = false → s.waitingForNewValue = false →
      '.' ∈ s.display.toList → handleDecimal s = s) := by
  have noop : ∀ s : CalcState, s.isError = false → s.waitingForNewValue = false →
      '.' ∈ s.display.toList → handleDecimal s = s := by
    intro s h1 h2 h3
    obtain ⟨d, pv, op, w, mem, hist, err⟩ := s
    dsimp only at h1 h2 h3
    subst h1; subst h2
    have h3' : '.' ∈ d.data := h3
    simp [handleDecimal, h3']
  have dotMem : ('.' : Char) ∈ "0.".toList := by decide
  refine ⟨?_, noop⟩
  intro s
  obtain ⟨d, pv, op, w, mem, hist, err⟩ := s
  cases err
  · cases w
    · by_cases h : '.' ∈ d.data
      · rw [noop ⟨d, pv, op, false, mem, hist, false⟩ rfl rfl h,
            noop ⟨d, pv, op, false, mem, hist, false⟩ rfl rfl h]
      · have hs : handleDecimal ⟨d, pv, op, false, mem, hist, false⟩ =
            ⟨d ++ ".", pv, op, false, mem, hist, false⟩ := by
          simp [handleDecimal, h]
        rw [hs, noop ⟨d ++ ".", pv, op, false, mem, hist, false⟩ rfl rfl
          (by rw [show (d ++ ".").toList = d.toList ++ ['.'] from rfl]; simp)]
    · have hs : handleDecimal ⟨d, pv, op, true, mem, hist, false⟩ =
          ⟨"0.", pv, op, false, mem, hist, false⟩ := rfl
      rw [hs, noop ⟨"0.", pv, op, false, mem, hist, false⟩ rfl rfl dotMem]
  · have hs : handleDecimal ⟨d, pv, op, w, mem, hist, true⟩ =
        ⟨"0.", pv, op, w, mem, hist, false⟩ := rfl
    rw [hs]
    cases w
    · rw [noop ⟨"0.", pv, op, false, mem, hist, false⟩ rfl rfl dotMem]
    · rfl

/-- Witness for the no-op clause of `C6_decimal_idempotent` at a display
that already holds a decimal point. -/
theorem C6_decimal_idempotent_witness :
    handleDecimal ⟨"1.5", none, none, false, some 0, [], false⟩ =
      ⟨"1.5", none, none, false, some 0, [], false⟩ :=
  C6_decimal_idempotent.2 ⟨"1.5", none, none, false, some 0, [], false⟩ rfl rfl (by decide)

/-- Claim C7: `handleAllClear` resets everything — display `"0"`, no
pending operand/operator, flags cleared, memory `0`, history empty
(i.e. exactly the initial state); `handleClear` performs the same reset
but keeps memory and history as they were. -/
theorem C7_clear_and_allClear (s : CalcState) :
    handleAllClear s = initState ∧
    handleClear s = { initState with memory := s.memory, history := s.history } :=
  ⟨rfl, rfl⟩

/-- Claim C8: factorial of display `"5"` succeeds with display `"120"`
and pushes the history entry `{expression: "!(5)", result: "120"}`;
factorial of `"-1"` or `"2.5"` sets the error flag and leaves the
history unchanged. -/
theorem C8_factorial_behaviour :
    (∀ (M : MathLib) (s : CalcState), s.display = "5" →
      (handleScientific M .fact s).display = "120" ∧
      (handleScientific M .fact s).history = ⟨"!(5)", "120"⟩ :: s.history.take 9) ∧
    (∀ (M : MathLib) (s : CalcState), s.display = "-1" →
      (handleScientific M .fact s).isError = true ∧
      (handleScientific M .fact s).history = s.history) ∧
    (∀ (M : MathLib) (s : CalcState), s.display = "2.5" →
      (handleScientific M .fact s).isError = true ∧
      (handleScientific M .fact s).history = s.history) := by
  refine ⟨?_, ?_, ?_⟩ <;> intro M s h <;>
    obtain ⟨d, pv, op, w, mem, hist, err⟩ := s <;> dsimp only at h <;> subst h
  · have hr : sciResult M SciFunc.fact (parseFloat "5") = some (some 120) := by
      with_unfolding_all rfl
    simp only [handleScientific, hr]
    exact ⟨by with_unfolding_all rfl, by with_unfolding_all rfl⟩
  · have hr : sciResult M SciFunc.fact (parseFloat "-1") = none := by
      with_unfolding_all rfl
    simp only [handleScientific, hr]
    exact ⟨by trivial, by trivial⟩
  · have hr : sciResult M SciFunc.fact (parseFloat "2.5") = none := by
      with_unfolding_all rfl
    simp only [handleScientific, hr]
    exact ⟨by trivial, by trivial⟩

/-- Witness for `C8_factorial_behaviour` at concrete states. -/
theorem C8_factorial_behaviour_witness :
    (handleScientific dummyMath .fact ⟨"5", none, none, false, some 0, [], false⟩).display =
      "120" ∧
    (handleScientific dummyMath .fact ⟨"-1", none, none, false, some 0, [], false⟩).isError =
      true ∧
    (handleScientific dummyMath .fact ⟨"2.5", none, none, false, some 0, [], false⟩).isError =
      true :=
  ⟨(C8_factorial_behaviour.1 dummyMath _ rfl).1,
   (C8_factorial_behaviour.2.1 dummyMath _ rfl).1,
   (C8_factorial_behaviour.2.2 dummyMath _ rfl).1⟩

/-- Claim C9: every memory command leaves pending operand/operator,
history and error flag unchanged; `MC` zeroes memory, `MR` copies memory
to the display and sets awaiting-new-entry, `MS` overwrites memory with
the display value, `M+`/`M-` add/subtract the display value; and storing
`42`, clearing, then recalling displays `"0"`. -/
theorem C9_memory_ops :
    (∀ (m : MemOp) (s : CalcState),
      (handleMemory m s).previousValue = s.previousValue ∧
      (handleMemory m s).operation = s.operation ∧
      (handleMemory m s).history = s.history ∧
      (handleMemory m s).isError = s.isError) ∧
    (∀ s : CalcState, (handleMemory .mc s).memory = some 0) ∧
    (∀ s : CalcState, (handleMemory .mr s).display = jsToString s.memory ∧
      (handleMemory .mr s).waitingForNewValue = true) ∧
    (∀ s : CalcState, (handleMemory .ms s).memory = parseFloat s.display) ∧
    (∀ s : CalcState,
      (handleMemory .mplus s).memory = jsAdd s.memory (parseFloat s.display) ∧
      (handleMemory .mminus s).memory = jsSub s.memory (parseFloat s.display)) ∧
    (handleMemory .mr (handleMemory .mc (handleMemory .ms
      ⟨"42", none, none, false, some 0, [], false⟩))).display = "0" :=
  ⟨handleMemory_frame, fun _ => rfl, fun _ => ⟨rfl, rfl⟩, fun _ => rfl,
   fun _ => ⟨rfl, rfl⟩, by with_unfolding_all rfl⟩

/-- Claim C10: a unary scientific function call that succeeds leaves the
pending operand and pending operator exactly as they were. -/
theorem C10_sci_success_preserves_pending (M : MathLib) (f : SciFunc) (s : CalcState)
    (h : (sciResult M f (parseFloat s.display)).isSome = true) :
    (handleScientific M f s).previousValue = s.previousValue ∧
    (handleScientific M f s).operation = s.operation :=
  handleScientific_pending M f s

/-- Witness for `C10_sci_success_preserves_pending`: squaring the
initial display succeeds. -/
theorem C10_sci_success_preserves_pending_witness :
    (sciResult dummyMath SciFunc.square (parseFloat initState.display)).isSome = true ∧
    ((handleScientific dummyMath SciFunc.square initState).previousValue =
        initState.previousValue ∧
      (handleScientific dummyMath SciFunc.square initState).operation = initState.operation) :=
  ⟨by with_unfolding_all rfl,
   C10_sci_success_preserves_pending dummyMath SciFunc.square initState
     (by with_unfolding_all rfl)⟩

end SciCalc
